import Mathlib

/-!
Verification of the Elidune auxiliary scripts (`scripts/migrate_data.py` and
`scripts/generate_large_dataset.py`) against their natural-language
specification.  The Python code is shallowly embedded: pure row transforms
become Lean functions, the randomized generator is parameterized by an
explicit oracle of choices, and database effects are abstracted as outcome
parameters.
-/

namespace MigrateData

/-! ### Command-line interface (`main`, argparse setup)

`main` registers the options `--source-db`, `--target-db`, `--reset`,
`--skip-items`, `--skip-users` and `--yes`/`-y`; argparse itself adds
`--help`/`-h`.  After parsing, `args.hash_passwords = True` is assigned
unconditionally; no `--no-hash` option is registered.  argparse recognizes a
`--`-prefixed token when it equals a registered long option or is an
unambiguous proper prefix of exactly one of them. -/

def longOptions : List String :=
  ["--source-db", "--target-db", "--reset", "--skip-items", "--skip-users",
   "--yes", "--help"]

def shortOptions : List String := ["-y", "-h"]

/-- Python `s.startswith(p)`, computed on the character lists. -/
def startsWithStr (s p : String) : Bool := p.toList.isPrefixOf s.toList

def recognizesFlag (f : String) : Bool :=
  shortOptions.contains f || longOptions.contains f ||
    (startsWithStr f "--" &&
      (longOptions.filter (fun o => startsWithStr o f)).length == 1)

/-! ### Per-row INSERT with login-conflict retry (`migrate_users`, lines 1212-1233)

The row INSERT is wrapped in `try/except IntegrityError`.  If the error
message mentions the login unique constraint, the login is made unique by
appending the user id and the INSERT is attempted a second time; any other
error propagates with no retry.  The database is abstracted as a function
from the attempted row to an outcome. -/

inductive InsertOutcome where
  | ok
  | integrityError (msg : String)
  | otherError (msg : String)
deriving DecidableEq, Repr

/-- Substring test on character lists: `pat` occurs somewhere in the list. -/
def subOccurs (pat : List Char) : List Char → Bool
  | [] => pat.isEmpty
  | c :: cs => pat.isPrefixOf (c :: cs) || subOccurs pat cs

/-- Python `pat in s` on strings. -/
def strContains (s pat : String) : Bool := subOccurs pat.toList s.toList

/-- Python `str.lower()` on an ASCII character. -/
def lowerChar (c : Char) : Char :=
  if c.isUpper then Char.ofNat (c.toNat + 32) else c

/-- Python `str.lower()` (restricted to its ASCII behaviour). -/
def lowerStr (s : String) : String := ⟨s.toList.map lowerChar⟩

/-- The `except IntegrityError` guard:
`'users_login_unique' in str(e) or 'login' in str(e).lower()`. -/
def isLoginConflict (msg : String) : Bool :=
  strContains msg "users_login_unique" || strContains (lowerStr msg) "login"

/-- The columns of the user row which the retry logic reads or rewrites. -/
structure UserRow where
  userId : Int
  login : String
deriving DecidableEq, Repr

/-- The retry rewrites the login to `f'{login}_{user_id}'`. -/
def retryRow (r : UserRow) : UserRow :=
  { r with login := r.login ++ "_" ++ toString r.userId }

inductive RowResult where
  | inserted
  | raised (msg : String)
deriving DecidableEq, Repr

/-- One source row of `migrate_users`: the attempts actually issued against
the target together with the final outcome.  `exec` abstracts the target
database response to an attempted row. -/
def insertUserRow (exec : UserRow → InsertOutcome) (r : UserRow) :
    List UserRow × RowResult :=
  match exec r with
  | .ok => ([r], .inserted)
  | .integrityError m =>
      if isLoginConflict m then
        -- retry once with the deduplicated login; errors of the retry propagate
        match exec (retryRow r) with
        | .ok => ([r, retryRow r], .inserted)
        | .integrityError m2 => ([r, retryRow r], .raised m2)
        | .otherError m2 => ([r, retryRow r], .raised m2)
      else ([r], .raised m)
  | .otherError m => ([r], .raised m)

/-! ### `convert_date` (lines 88-100)

`convert_date(value, use_timestamptz)` returns `value` unchanged when
`use_timestamptz` is false; otherwise `None` for `None`/`0`, the UTC datetime
for a convertible epoch value, and `None` when `datetime.fromtimestamp`
raises.  `datetime.fromtimestamp(v, tz=utc)` succeeds exactly when the
resulting datetime falls within years 1..9999. -/

inductive DateOut where
  | raw (v : Option Int)
  | null
  | timestamp (epoch : Int)
deriving DecidableEq, Repr

/-- Epoch seconds of 0001-01-01T00:00:00Z, the smallest datetime. -/
def datetimeMinEpoch : Int := -62135596800

/-- Epoch seconds of 9999-12-31T23:59:59Z, the largest whole-second datetime. -/
def datetimeMaxEpoch : Int := 253402300799

/-- Model of `datetime.fromtimestamp(v, tz=timezone.utc)`: the UTC datetime
(kept as its epoch value) when in range, failure otherwise. -/
def fromtimestampUtc (v : Int) : Option Int :=
  if datetimeMinEpoch ≤ v ∧ v ≤ datetimeMaxEpoch then some v else none

def convert_date (value : Option Int) (use_timestamptz : Bool) : DateOut :=
  if !use_timestamptz then
    .raw value
  else
    match value with
    | none => .null
    | some n =>
        if n = 0 then .null
        else
          match fromtimestampUtc n with
          | some t => .timestamp t
          | none => .null

/-! ### Password hashing (`hash_password`, lines 61-65, and `migrate_users`
lines 1112-1119)

`hash_password` returns `None` for `None`/empty and `hasher.hash(password)`
otherwise.  In `migrate_users`, when hashing is enabled, a truthy source
password is hashed unless it already starts with `$argon2`, in which case it
is copied; a falsy one yields `None`.  The Argon2 library call is abstracted
as `hasher`. -/

def hash_password (password : Option String) (hasher : String → String) :
    Option String :=
  match password with
  | none => none
  | some p => if p = "" then none else some (hasher p)

/-- The `password` value computed for one user row in `migrate_users`. -/
def migratePassword (hash_passwords : Bool) (hasher : String → String)
    (original : Option String) : Option String :=
  match original with
  | none => none
  | some p =>
      if hash_passwords && p != "" then
        if !(startsWithStr p "$argon2") then hash_password (some p) hasher
        else some p
      else none

/-- In the emitted target row, the password column is appended only when the
target schema has one (`password_column` non-null); its value is
`migratePassword`. -/
def userRowPasswordField (hasPasswordColumn : Bool) (hash_passwords : Bool)
    (hasher : String → String) (original : Option String) :
    Option (Option String) :=
  if hasPasswordColumn then
    some (migratePassword hash_passwords hasher original)
  else none

/-! ### `migrate_loans` (lines 1539-1667)

Each source `borrows` row is read, its four date columns converted, and
exactly one INSERT is issued: into the archives table when the row's original
`returned_date` is neither NULL nor 0, into the active loans table otherwise. -/

structure Borrow where
  id : Int
  userId : Option Int
  specimenId : Option Int
  itemId : Option Int
  date : Option Int
  renewDate : Option Int
  nbRenews : Option Int
  issueDate : Option Int
  notes : Option String
  returnedDate : Option Int
deriving DecidableEq, Repr

/-- The borrow row after the in-place `convert_date` calls on indices
4 (`date`), 5 (`renew_date`), 7 (`issue_date`) and 9 (`returned_date`). -/
structure ConvertedBorrow where
  id : Int
  userId : Option Int
  specimenId : Option Int
  itemId : Option Int
  date : DateOut
  renewDate : DateOut
  nbRenews : Option Int
  issueDate : DateOut
  notes : Option String
  returnedDate : DateOut
deriving DecidableEq, Repr

def convertBorrow (useTz : Bool) (b : Borrow) : ConvertedBorrow :=
  { id := b.id, userId := b.userId, specimenId := b.specimenId,
    itemId := b.itemId
    date := convert_date b.date useTz
    renewDate := convert_date b.renewDate useTz
    nbRenews := b.nbRenews
    issueDate := convert_date b.issueDate useTz
    notes := b.notes
    returnedDate := convert_date b.returnedDate useTz }

inductive LoanDest where
  | active
  | archived
deriving DecidableEq, Repr

/-- Destination test `returned_date is not None and returned_date != 0`,
evaluated on the original (pre-conversion) value saved at line 1583. -/
def loanDest (b : Borrow) : LoanDest :=
  match b.returnedDate with
  | none => .active
  | some v => if v ≠ 0 then .archived else .active

/-- The per-row emission of `migrate_loans`: one insert per source row,
tagged with its destination. -/
def migrate_loans (useTz : Bool) (rows : List Borrow) :
    List (LoanDest × ConvertedBorrow) :=
  rows.map (fun b => (loanDest b, convertBorrow useTz b))

/-- `active_count` accumulated by the loop. -/
def activeCount (useTz : Bool) (rows : List Borrow) : Nat :=
  ((migrate_loans useTz rows).filter (fun ins => ins.1 = .active)).length

/-- `archived_count` accumulated by the loop. -/
def archivedCount (useTz : Bool) (rows : List Borrow) : Nat :=
  ((migrate_loans useTz rows).filter (fun ins => ins.1 = .archived)).length

/-! ### `confirm_reset` (lines 1847-1856) and the control flow of `main`
(lines 1859-1984)

`main` parses the flags, then forces `hash_passwords = True`; if argon2 is
unavailable it exits 1 before anything else; if `--reset` was given without
`--yes` it prompts and exits 0 unless the response lowercases to `yes`; only
then does it enter the `try` block that connects to and writes the target
database.  An exception escaping the migration steps is printed with a
traceback and the process exits 1. -/

def confirm_reset (response : String) : Bool :=
  lowerStr response == "yes"

structure Args where
  reset : Bool
  yes : Bool
  skipItems : Bool
  skipUsers : Bool
deriving DecidableEq, Repr

/-- Line 1884: `args.hash_passwords = True`, regardless of the flags. -/
def argsHashPasswords (_ : Args) : Bool := true

/-- Outcome of the `try` block body (connections, schema work and the
migration steps), abstracted: it returns, raises an exception, or calls
`sys.exit` directly. -/
inductive BodyOutcome where
  | ok
  | raised (msg : String)
  | exited (code : Int)
deriving DecidableEq, Repr

inductive MainResult where
  | exited (code : Int)
  | completed
deriving DecidableEq, Repr

structure MainTrace where
  result : MainResult
  /-- Whether control entered the `try` block; every connection to and write
  of the target database happens inside it. -/
  targetTouched : Bool
  /-- The message printed (with a traceback) by the top-level `except
  Exception` handler, when it ran. -/
  handlerError : Option String
deriving DecidableEq, Repr

def mainRun (args : Args) (argon2Available : Bool) (promptResponse : String)
    (body : BodyOutcome) : MainTrace :=
  if argsHashPasswords args && !argon2Available then
    { result := .exited 1, targetTouched := false, handlerError := none }
  else if args.reset && !args.yes && !(confirm_reset promptResponse) then
    { result := .exited 0, targetTouched := false, handlerError := none }
  else
    match body with
    | .ok => { result := .completed, targetTouched := true, handlerError := none }
    | .raised m =>
        { result := .exited 1, targetTouched := true, handlerError := some m }
    | .exited c =>
        { result := .exited c, targetTouched := true, handlerError := none }

end MigrateData

namespace GenerateDataset

/-! ### `generate_large_dataset.py`: `is_workday` (lines 148-150) and
`generate_loans` (lines 360-454)

Dates are modelled as integer day numbers (days since 1970-01-01, a
Thursday, so `weekday() == 6` means day mod 7 = 6 after the +3 shift).  The
holiday set is a parameter.  Every `random.*` call is replaced by a value
supplied by an explicit oracle; `randint(a, b)` draws are mapped into their
range with `a + x % (b - a + 1)`.  Python dicts are modelled as
insertion-ordered association lists with the usual overwrite-on-assignment
and remove-on-pop semantics. -/

def weekday (d : Int) : Int := (d + 3).emod 7

def is_workday (holidays : List Int) (d : Int) : Bool :=
  weekday d != 6 && !(holidays.contains d)

/-- Python `dict.__setitem__`: overwrite in place if the key is present,
otherwise append. -/
def dictInsert {V : Type} (l : List (Nat × V)) (k : Nat) (v : V) :
    List (Nat × V) :=
  match l with
  | [] => [(k, v)]
  | (k', v') :: es => if k' = k then (k, v) :: es else (k', v') :: dictInsert es k v

/-- Python `dict.pop(k)` (the removal part): drop the binding of `k`. -/
def dictRemove {V : Type} (l : List (Nat × V)) (k : Nat) : List (Nat × V) :=
  match l with
  | [] => []
  | (k', v') :: es => if k' = k then es else (k', v') :: dictRemove es k

/-- Python `dict[k]` lookup. -/
def dictFind {V : Type} (l : List (Nat × V)) (k : Nat) : Option V :=
  match l with
  | [] => none
  | (k', v') :: es => if k' = k then some v' else dictFind es k

/-- Value stored in `specimen_loaned`: `(user_id, loan_date, item_id)`. -/
structure LoanedEntry where
  userId : Nat
  loanDate : Int
  itemId : Nat
deriving DecidableEq, Repr

/-- A row appended to `current_loans` (`returned_date` is NULL). -/
structure ActiveLoan where
  loanId : Nat
  userId : Nat
  specimenId : Nat
  itemId : Nat
  loanDate : Int
  loanHour : Nat
  issueDate : Int
  issueHour : Nat
  nbRenews : Nat
deriving DecidableEq, Repr

/-- A row appended to `returned_loans`. -/
structure ReturnedLoan where
  loanId : Nat
  userId : Nat
  specimenId : Nat
  itemId : Nat
  loanDate : Int
  loanHour : Nat
  issueDate : Int
  issueHour : Nat
  nbRenews : Nat
  returnDate : Int
  returnHour : Nat
deriving DecidableEq, Repr

structure LoanState where
  currentLoans : List ActiveLoan
  returnedLoans : List ReturnedLoan
  loanId : Nat
  specimenAvailable : List Nat
  specimenLoaned : List (Nat × LoanedEntry)
deriving DecidableEq, Repr

/-- Oracle values consumed by one iteration of the returns loop. -/
structure ReturnChoice where
  pick : Nat
  /-- `random.random() > 0.3`: the 70 percent returned-on-time-or-early branch. -/
  early : Bool
  /-- `random.randint(0, 2)` via `% 3`. -/
  daysBefore : Nat
  /-- `random.randint(1, 30)` via `1 + % 30`. -/
  lateDays : Nat
  loanHour : Nat
  issueOffset : Nat
  issueHour : Nat
  returnHour : Nat
  renewRoll : Bool
  nbRenews : Nat
deriving Repr

/-- Oracle values consumed by one iteration of the new-loans loop. -/
structure LoanChoice where
  pick : Nat
  userRand : Nat
  /-- `random.random() < 0.8`: the loan will be returned later. -/
  toReturn : Bool
  loanHour : Nat
  issueOffset : Nat
  issueHour : Nat
  renewRoll : Bool
  nbRenews : Nat
deriving Repr

/-- Oracle values consumed when emitting one remaining active loan at the end. -/
structure EmitChoice where
  loanHour : Nat
  issueOffset : Nat
  issueHour : Nat
  renewRoll : Bool
  nbRenews : Nat
deriving Repr

/-- The return-date computation (lines 394-401): the return date is the
current day, or, in the 70 percent branch, up to 2 days earlier, replaced by
`loan_date + randint(1, 30)` whenever that would fall before the loan date. -/
def returnDateFor (d : Int) (c : ReturnChoice) (loanDate : Int) : Int :=
  if c.early then
    if d - (c.daysBefore % 3 : Nat) < loanDate then
      loanDate + (1 + c.lateDays % 30 : Nat)
    else d - (c.daysBefore % 3 : Nat)
  else d

/-- `nb_renews = random.randint(0, 2) if random.random() > 0.7 else 0`
(line 407). -/
def nbRenewsReturned (c : ReturnChoice) : Nat :=
  if c.renewRoll then c.nbRenews % 3 else 0

/-- `nb_renews = random.randint(0, 1) if random.random() > 0.8 else 0`
(lines 434 and 447). -/
def nbRenewsActive (roll : Bool) (n : Nat) : Nat :=
  if roll then n % 2 else 0

/-- One iteration of the returns loop (lines 386-413): pick a loaned
specimen, pop it, put it back in the available pool, compute the return date
(with the not-before-loan-date adjustment) and emit the returned row. -/
def doReturn (d : Int) (c : ReturnChoice) (st : LoanState) : LoanState :=
  let keys := st.specimenLoaned.map Prod.fst
  let s := keys.getD (c.pick % keys.length) 0
  match dictFind st.specimenLoaned s with
  | none => st
  | some e =>
      let returnDate := returnDateFor d c e.loanDate
      let row : ReturnedLoan :=
        { loanId := st.loanId, userId := e.userId, specimenId := s,
          itemId := e.itemId
          loanDate := e.loanDate, loanHour := 9 + c.loanHour % 9
          issueDate := e.loanDate + (c.issueOffset % 4 : Nat)
          issueHour := 9 + c.issueHour % 9
          nbRenews := nbRenewsReturned c
          returnDate := returnDate, returnHour := 14 + c.returnHour % 5 }
      { st with
        specimenLoaned := dictRemove st.specimenLoaned s
        specimenAvailable := st.specimenAvailable ++ [s]
        returnedLoans := st.returnedLoans ++ [row]
        loanId := st.loanId + 1 }

/-- The returns loop: `for _ in range(min(num_returns, len(specimen_loaned)))`
with the `if not specimen_loaned: break` guard.  Each iteration removes
exactly one entry, so iterating the choice list with an emptiness guard is
the same loop. -/
def doReturns (d : Int) : List ReturnChoice → LoanState → LoanState
  | [], st => st
  | c :: cs, st =>
      if st.specimenLoaned.isEmpty then st
      else doReturns d cs (doReturn d c st)

/-- One iteration of the new-loans loop (lines 416-439): pick an available
specimen, remove it, and either record it in `specimen_loaned` (80 percent)
or emit it immediately as an active loan. -/
def doLoan (numUsers : Nat) (itemMap : Nat → Nat) (d : Int) (c : LoanChoice)
    (st : LoanState) : LoanState :=
  let avail := st.specimenAvailable
  let s := avail.getD (c.pick % avail.length) 0
  let avail2 := avail.erase s
  let u := 1 + c.userRand % numUsers
  let it := itemMap s
  if c.toReturn then
    { st with
      specimenAvailable := avail2
      specimenLoaned := dictInsert st.specimenLoaned s ⟨u, d, it⟩ }
  else
    let row : ActiveLoan :=
      { loanId := st.loanId, userId := u, specimenId := s, itemId := it
        loanDate := d, loanHour := 9 + c.loanHour % 9
        issueDate := d + (c.issueOffset % 4 : Nat)
        issueHour := 9 + c.issueHour % 9
        nbRenews := nbRenewsActive c.renewRoll c.nbRenews }
    { st with
      specimenAvailable := avail2
      currentLoans := st.currentLoans ++ [row]
      loanId := st.loanId + 1 }

/-- The new-loans loop: `for _ in range(min(num_loans, len(specimen_available)))`
with the `if not specimen_available: break` guard. -/
def doLoans (numUsers : Nat) (itemMap : Nat → Nat) (d : Int) :
    List LoanChoice → LoanState → LoanState
  | [], st => st
  | c :: cs, st =>
      if st.specimenAvailable.isEmpty then st
      else doLoans numUsers itemMap d cs (doLoan numUsers itemMap d c st)

/-- The randomness consumed on one calendar day. -/
structure DayChoice where
  returns : List ReturnChoice
  loans : List LoanChoice

structure GenParams where
  numUsers : Nat
  itemMap : Nat → Nat
  /-- `list(specimen_item_map.keys())` (dict keys, hence pairwise distinct). -/
  specimens : List Nat
  holidays : List Int

/-- The body of the `while current_date <= end_date` loop for one day. -/
def dayStep (p : GenParams) (dc : Int → DayChoice) (st : LoanState) (d : Int) :
    LoanState :=
  if is_workday p.holidays d then
    doLoans p.numUsers p.itemMap d (dc d).loans (doReturns d (dc d).returns st)
  else st

/-- The days visited by the while loop: `start_date, start_date+1, ..., end_date`. -/
def daysRange (startD endD : Int) : List Int :=
  (List.range (endD + 1 - startD).toNat).map (fun (i : Nat) => startD + (i : Int))

def initState (specimens : List Nat) : LoanState :=
  { currentLoans := [], returnedLoans := [], loanId := 1
    specimenAvailable := specimens, specimenLoaned := [] }

/-- The final loop (lines 444-452): each specimen still in `specimen_loaned`
is emitted as an active loan with consecutive ids. -/
def flushRows (emit : Nat → EmitChoice) :
    Nat → Nat → List (Nat × LoanedEntry) → List ActiveLoan
  | _, _, [] => []
  | i, lid, (s, e) :: rest =>
      let ec := emit i
      ({ loanId := lid, userId := e.userId, specimenId := s, itemId := e.itemId
         loanDate := e.loanDate, loanHour := 9 + ec.loanHour % 9
         issueDate := e.loanDate + (ec.issueOffset % 4 : Nat)
         issueHour := 9 + ec.issueHour % 9
         nbRenews := nbRenewsActive ec.renewRoll ec.nbRenews } :
        ActiveLoan) :: flushRows emit (i + 1) (lid + 1) rest

/-- `generate_loans`: returns `(current_loans, returned_loans)`. -/
def generate_loans (p : GenParams) (dc : Int → DayChoice)
    (emit : Nat → EmitChoice) (startD endD : Int) :
    List ActiveLoan × List ReturnedLoan :=
  let stF := (daysRange startD endD).foldl (dayStep p dc) (initState p.specimens)
  (stF.currentLoans ++ flushRows emit 0 stF.loanId stF.specimenLoaned,
   stF.returnedLoans)

end GenerateDataset

namespace MigrateData

/-- C1 counterexample: the argument parser does not recognize `--no-hash`;
no invocation containing it is accepted. -/
theorem C1_no_hash_counterexample : recognizesFlag "--no-hash" = false := by
  decide

/-- C1 (amended): the parser accepts `--source-db`, `--target-db`, `--reset`,
`--skip-items`, `--skip-users` and `--yes` with `-y` as alias, but `--no-hash`
is not a recognized option. -/
theorem C1_flags_amended :
    recognizesFlag "--source-db" = true ∧
    recognizesFlag "--target-db" = true ∧
    recognizesFlag "--reset" = true ∧
    recognizesFlag "--skip-items" = true ∧
    recognizesFlag "--skip-users" = true ∧
    recognizesFlag "--yes" = true ∧
    recognizesFlag "-y" = true ∧
    recognizesFlag "--no-hash" = false := by
  decide

/-- A target database that reports a login unique-constraint violation on the
first attempted row and accepts everything else. -/
def execLoginClash : UserRow → InsertOutcome := fun r =>
  if r.login = "alice" then
    .integrityError
      "duplicate key value violates unique constraint users_login_unique"
  else .ok

def rowAlice : UserRow := { userId := 7, login := "alice" }

/-- C2 counterexample: a row whose INSERT raises an IntegrityError naming the
login unique constraint is inserted a second time (with the login
deduplicated), so this row failure is retried. -/
theorem C2_retry_counterexample :
    execLoginClash rowAlice =
      .integrityError
        "duplicate key value violates unique constraint users_login_unique" ∧
    (insertUserRow execLoginClash rowAlice).1 =
      [rowAlice, { userId := 7, login := "alice_7" }] := by
  decide

/-- C2 (amended): at most two INSERT attempts are ever made for one source
row; a second attempt happens exactly when the first raises an IntegrityError
whose message mentions the login unique constraint, and that retry re-inserts
the same row with the login deduplicated; every other failure is not
retried. -/
theorem C2_retry_amended (exec : UserRow → InsertOutcome) (r : UserRow) :
    (insertUserRow exec r).1.length ≤ 2 ∧
    ((insertUserRow exec r).1.length = 2 ↔
      ∃ m, exec r = .integrityError m ∧ isLoginConflict m = true) ∧
    ((insertUserRow exec r).1.length = 2 →
      (insertUserRow exec r).1 = [r, retryRow r]) ∧
    (∀ m, exec r = .otherError m → (insertUserRow exec r).1 = [r]) ∧
    (∀ m, exec r = .integrityError m → isLoginConflict m = false →
      (insertUserRow exec r).1 = [r]) := by
  unfold insertUserRow
  cases h : exec r with
  | ok => simp [h]
  | integrityError m =>
      by_cases hc : isLoginConflict m
      · cases h2 : exec (retryRow r) <;> simp [h, hc, h2]
      · simp [h, hc]
  | otherError m => simp [h]

/-- C3: `migrate_loans` issues exactly one target insert per source borrow
row, into the archives table precisely when the original `returned_date` is
neither NULL nor 0 and into the active loans table otherwise, so the active
and archived counts sum to the number of source rows. -/
theorem C3_loan_counts (useTz : Bool) (rows : List Borrow) :
    (migrate_loans useTz rows).length = rows.length ∧
    activeCount useTz rows + archivedCount useTz rows = rows.length ∧
    (∀ b ∈ rows,
      (loanDest b = .archived ↔ b.returnedDate ≠ none ∧ b.returnedDate ≠ some 0)) := by
  refine ⟨by simp [migrate_loans], ?_, ?_⟩
  · unfold activeCount archivedCount migrate_loans
    induction rows with
    | nil => simp
    | cons b rest ih =>
        simp only [List.map_cons, List.filter_cons]
        cases hd : loanDest b <;> simp [hd] at ih ⊢ <;> omega
  · intro b _
    unfold loanDest
    cases hb : b.returnedDate with
    | none => simp
    | some v => by_cases hv : v = 0 <;> simp [hv]

/-- C3 witness: evaluation on a concrete three-row source table. -/
theorem C3_loan_counts_witness :
    (migrate_loans true
        [{ id := 1, userId := some 1, specimenId := some 2, itemId := some 3,
           date := some 10, renewDate := none, nbRenews := some 0,
           issueDate := some 12, notes := none, returnedDate := some 20 },
         { id := 2, userId := some 1, specimenId := some 4, itemId := some 5,
           date := some 11, renewDate := none, nbRenews := some 0,
           issueDate := some 13, notes := none, returnedDate := none },
         { id := 3, userId := some 2, specimenId := some 6, itemId := some 7,
           date := some 14, renewDate := none, nbRenews := some 0,
           issueDate := some 15, notes := none, returnedDate := some 0 }]).length = 3 ∧
    activeCount true
        [{ id := 1, userId := some 1, specimenId := some 2, itemId := some 3,
           date := some 10, renewDate := none, nbRenews := some 0,
           issueDate := some 12, notes := none, returnedDate := some 20 },
         { id := 2, userId := some 1, specimenId := some 4, itemId := some 5,
           date := some 11, renewDate := none, nbRenews := some 0,
           issueDate := some 13, notes := none, returnedDate := none },
         { id := 3, userId := some 2, specimenId := some 6, itemId := some 7,
           date := some 14, renewDate := none, nbRenews := some 0,
           issueDate := some 15, notes := none, returnedDate := some 0 }] +
      archivedCount true
        [{ id := 1, userId := some 1, specimenId := some 2, itemId := some 3,
           date := some 10, renewDate := none, nbRenews := some 0,
           issueDate := some 12, notes := none, returnedDate := some 20 },
         { id := 2, userId := some 1, specimenId := some 4, itemId := some 5,
           date := some 11, renewDate := none, nbRenews := some 0,
           issueDate := some 13, notes := none, returnedDate := none },
         { id := 3, userId := some 2, specimenId := some 6, itemId := some 7,
           date := some 14, renewDate := none, nbRenews := some 0,
           issueDate := some 15, notes := none, returnedDate := some 0 }] = 3 :=
  ⟨(C3_loan_counts true _).1, (C3_loan_counts true _).2.1⟩

/-- A stand-in for the external Argon2 `hasher.hash`. -/
def hasherDemo : String → String := fun s => "$argon2id$demo:" ++ s

/-- C4: with hashing enabled (as `main` forces), a non-empty source password
not starting with `$argon2` is replaced by its Argon2 hash, one starting with
`$argon2` is copied unchanged, and a NULL or empty password maps to NULL; the
password column of the emitted row carries exactly this value when the target
schema has one. -/
theorem C4_password_hashing (hasher : String → String) (p : String) :
    (p ≠ "" → startsWithStr p "$argon2" = false →
      migratePassword true hasher (some p) = some (hasher p)) ∧
    (startsWithStr p "$argon2" = true →
      migratePassword true hasher (some p) = some p) ∧
    migratePassword true hasher none = none ∧
    migratePassword true hasher (some "") = none ∧
    (∀ orig, userRowPasswordField true true hasher orig =
      some (migratePassword true hasher orig)) := by
  refine ⟨?_, ?_, rfl, rfl, fun _ => rfl⟩
  · intro hne hpre
    simp [migratePassword, hne, hpre, hash_password, if_neg hne]
  · intro hpre
    have hne : p ≠ "" := by
      intro h
      rw [h] at hpre
      simp [startsWithStr, List.isPrefixOf] at hpre
    simp [migratePassword, hne, hpre]

/-- C4 witness: a fresh password is hashed, an already-hashed one is kept. -/
theorem C4_password_hashing_witness :
    migratePassword true hasherDemo (some "secret") =
      some (hasherDemo "secret") ∧
    migratePassword true hasherDemo (some "$argon2id$v=19$old") =
      some "$argon2id$v=19$old" :=
  ⟨(C4_password_hashing hasherDemo "secret").1 (by decide) (by decide),
   (C4_password_hashing hasherDemo "$argon2id$v=19$old").2.1 (by decide)⟩

/-- C5: `convert_date` is a total function; with `use_timestamptz` false it
returns its input unchanged, with it true it maps NULL and 0 to NULL, a
convertible epoch value to the corresponding UTC datetime, and an
out-of-range value (where `fromtimestamp` raises) to NULL. -/
theorem C5_convert_date :
    (∀ v, convert_date v false = .raw v) ∧
    convert_date none true = .null ∧
    convert_date (some 0) true = .null ∧
    (∀ n : Int, n ≠ 0 → datetimeMinEpoch ≤ n ∧ n ≤ datetimeMaxEpoch →
      convert_date (some n) true = .timestamp n) ∧
    (∀ n : Int, ¬(datetimeMinEpoch ≤ n ∧ n ≤ datetimeMaxEpoch) →
      convert_date (some n) true = .null) := by
  refine ⟨fun v => rfl, rfl, rfl, ?_, ?_⟩
  · intro n hne hrange
    simp [convert_date, fromtimestampUtc, hne, hrange]
  · intro n hrange
    have hne : n ≠ 0 := by
      intro h
      exact hrange (by rw [h]; exact ⟨by decide, by decide⟩)
    simp [convert_date, fromtimestampUtc, hne, hrange]

/-- C5 witness: an in-range epoch converts, an out-of-range one yields NULL. -/
theorem C5_convert_date_witness :
    convert_date (some 1700000000) true = .timestamp 1700000000 ∧
    convert_date (some 1000000000000) true = .null :=
  ⟨(C5_convert_date).2.2.2.1 1700000000 (by decide) (by decide),
   (C5_convert_date).2.2.2.2 1000000000000 (by decide)⟩

/-- C6: invoked with `--reset` and without `--yes` (argon2 present), the
reset is confirmed exactly when the typed response equals `yes`
case-insensitively; for any other response the run exits with status 0
without entering the block that connects to or writes the target database. -/
theorem C6_reset_confirmation (args : Args) (resp : String)
    (body : BodyOutcome) (hr : args.reset = true) (hy : args.yes = false) :
    (confirm_reset resp = true ↔ lowerStr resp = "yes") ∧
    (confirm_reset resp = false →
      mainRun args true resp body =
        { result := .exited 0, targetTouched := false, handlerError := none }) := by
  constructor
  · simp [confirm_reset]
  · intro hc
    simp [mainRun, argsHashPasswords, hr, hy, hc]

/-- C6 witness: with `--reset`, no `--yes` and the response `No`, the run is
cancelled with exit status 0 and the target is untouched. -/
theorem C6_reset_confirmation_witness :
    mainRun { reset := true, yes := false, skipItems := false,
              skipUsers := false } true "No" .ok =
      { result := .exited 0, targetTouched := false, handlerError := none } :=
  (C6_reset_confirmation
      { reset := true, yes := false, skipItems := false, skipUsers := false }
      "No" .ok rfl rfl).2 (by decide)

/-- C7 counterexample: no invocation completes a migration when the argon2
library is unavailable, because `main` unconditionally sets
`hash_passwords = True` and exits with status 1 before migrating. -/
theorem C7_optional_argon2_counterexample :
    ¬ ∃ (args : Args) (resp : String) (body : BodyOutcome),
        (mainRun args false resp body).result = .completed := by
  rintro ⟨args, resp, body, h⟩
  simp [mainRun, argsHashPasswords] at h

/-- C7 (amended): a missing argon2 library does not abort the import (only a
warning is printed), but every invocation of the tool then exits with status
1 before touching the target database, since `hash_passwords` is forced on. -/
theorem C7_optional_argon2_amended (args : Args) (resp : String)
    (body : BodyOutcome) :
    mainRun args false resp body =
      { result := .exited 1, targetTouched := false, handlerError := none } :=
  rfl

/-- C8: whenever an exception escapes the migration steps inside the `try`
block, the top-level handler records the error (printed with a traceback) and
the process exits with status 1. -/
theorem C8_top_level_handler (args : Args) (resp : String) (e : String)
    (hguard : args.reset = false ∨ args.yes = true ∨ confirm_reset resp = true) :
    mainRun args true resp (.raised e) =
      { result := .exited 1, targetTouched := true, handlerError := some e } := by
  rcases hguard with h | h | h <;>
    simp [mainRun, argsHashPasswords, h]

/-- C8 witness: a concrete failing migration exits 1 with the error
recorded. -/
theorem C8_top_level_handler_witness :
    mainRun { reset := false, yes := false, skipItems := false,
              skipUsers := false } true "" (.raised "connection refused") =
      { result := .exited 1, targetTouched := true,
        handlerError := some "connection refused" } :=
  C8_top_level_handler
    { reset := false, yes := false, skipItems := false, skipUsers := false }
    "" "connection refused" (Or.inl rfl)

end MigrateData

namespace GenerateDataset

/-! ### Lemmas about the dict model -/

theorem dictFind_mem {V : Type} {l : List (Nat × V)} {k : Nat} {v : V}
    (h : dictFind l k = some v) : (k, v) ∈ l := by
  induction l with
  | nil => simp [dictFind] at h
  | cons e es ih =>
      obtain ⟨k', v'⟩ := e
      by_cases hk : k' = k
      · subst hk
        simp [dictFind] at h
        simp [h]
      · simp [dictFind, hk] at h
        exact List.mem_cons_of_mem _ (ih h)

theorem dictRemove_subset {V : Type} {l : List (Nat × V)} {k : Nat} :
    ∀ p ∈ dictRemove l k, p ∈ l := by
  induction l with
  | nil => simp [dictRemove]
  | cons e es ih =>
      obtain ⟨k', v'⟩ := e
      intro p hp
      by_cases hk : k' = k
      · simp [dictRemove, hk] at hp
        exact List.mem_cons_of_mem _ hp
      · simp [dictRemove, hk] at hp
        rcases hp with h | h
        · simp [h]
        · exact List.mem_cons_of_mem _ (ih p h)

theorem dictInsert_mem {V : Type} {l : List (Nat × V)} {k : Nat} {v : V} :
    ∀ p ∈ dictInsert l k v, p ∈ l ∨ p = (k, v) := by
  induction l with
  | nil => simp [dictInsert]
  | cons e es ih =>
      obtain ⟨k', v'⟩ := e
      intro p hp
      by_cases hk : k' = k
      · simp [dictInsert, hk] at hp
        rcases hp with h | h
        · exact .inr (by simp [h])
        · exact .inl (List.mem_cons_of_mem _ h)
      · simp [dictInsert, hk] at hp
        rcases hp with h | h
        · exact .inl (by simp [h])
        · rcases ih p h with h2 | h2
          · exact .inl (List.mem_cons_of_mem _ h2)
          · exact .inr h2

/-! ### C10 invariants: loan dates of open loans precede the current day, and
every emitted returned row satisfies `loan_date <= return_date` -/

def returnedOk (st : LoanState) : Prop :=
  ∀ r ∈ st.returnedLoans, r.loanDate ≤ r.returnDate

def loanedLe (st : LoanState) (d : Int) : Prop :=
  ∀ q ∈ st.specimenLoaned, q.2.loanDate ≤ d

theorem returnDateFor_ge {d ld : Int} (c : ReturnChoice) (h : ld ≤ d) :
    ld ≤ returnDateFor d c ld := by
  simp only [returnDateFor]
  split_ifs <;> omega

theorem doReturn_inv {d : Int} {c : ReturnChoice} {st : LoanState}
    (hL : loanedLe st d) (hR : returnedOk st) :
    returnedOk (doReturn d c st) ∧ loanedLe (doReturn d c st) d := by
  simp only [doReturn]
  cases hfind : dictFind st.specimenLoaned
      ((st.specimenLoaned.map Prod.fst).getD
        (c.pick % (st.specimenLoaned.map Prod.fst).length) 0) with
  | none => exact ⟨hR, hL⟩
  | some e =>
      have hmem := dictFind_mem hfind
      constructor
      · intro r hr
        simp only [List.mem_append, List.mem_singleton] at hr
        rcases hr with h1 | h1
        · exact hR r h1
        · subst h1
          exact returnDateFor_ge c (hL _ hmem)
      · intro q hq
        exact hL q (dictRemove_subset q hq)

theorem doReturns_inv {d : Int} (cs : List ReturnChoice) {st : LoanState}
    (hL : loanedLe st d) (hR : returnedOk st) :
    returnedOk (doReturns d cs st) ∧ loanedLe (doReturns d cs st) d := by
  induction cs generalizing st with
  | nil => exact ⟨hR, hL⟩
  | cons c cs ih =>
      unfold doReturns
      split
      · exact ⟨hR, hL⟩
      · obtain ⟨h1, h2⟩ := doReturn_inv hL hR
        exact ih h2 h1

theorem doLoan_inv {numUsers : Nat} {itemMap : Nat → Nat} {d : Int}
    {c : LoanChoice} {st : LoanState}
    (hL : loanedLe st d) (hR : returnedOk st) :
    returnedOk (doLoan numUsers itemMap d c st) ∧
    loanedLe (doLoan numUsers itemMap d c st) d := by
  simp only [doLoan]
  split
  · refine ⟨hR, ?_⟩
    intro q hq
    rcases dictInsert_mem q hq with h | h
    · exact hL q h
    · simp [h]
  · exact ⟨hR, hL⟩

theorem doLoans_inv {numUsers : Nat} {itemMap : Nat → Nat} {d : Int}
    (cs : List LoanChoice) {st : LoanState}
    (hL : loanedLe st d) (hR : returnedOk st) :
    returnedOk (doLoans numUsers itemMap d cs st) ∧
    loanedLe (doLoans numUsers itemMap d cs st) d := by
  induction cs generalizing st with
  | nil => exact ⟨hR, hL⟩
  | cons c cs ih =>
      unfold doLoans
      split
      · exact ⟨hR, hL⟩
      · obtain ⟨h1, h2⟩ := doLoan_inv hL hR
        exact ih h2 h1

theorem dayStep_inv {p : GenParams} {dc : Int → DayChoice} {st : LoanState}
    {d : Int} (hL : loanedLe st d) (hR : returnedOk st) :
    returnedOk (dayStep p dc st d) ∧ loanedLe (dayStep p dc st d) d := by
  unfold dayStep
  split
  · obtain ⟨h1, h2⟩ := doReturns_inv (dc d).returns hL hR
    exact doLoans_inv (dc d).loans h2 h1
  · exact ⟨hR, hL⟩

theorem foldl_returnedOk (p : GenParams) (dc : Int → DayChoice) :
    ∀ (ds : List Int) (st : LoanState),
      ds.Pairwise (· ≤ ·) →
      (∀ q ∈ st.specimenLoaned, ∀ d ∈ ds, q.2.loanDate ≤ d) →
      returnedOk st →
      returnedOk (ds.foldl (dayStep p dc) st) := by
  intro ds
  induction ds with
  | nil => exact fun st _ _ hR => hR
  | cons d rest ih =>
      intro st hp hq hR
      simp only [List.foldl_cons]
      have hL : loanedLe st d := fun q hmem => hq q hmem d (by simp)
      obtain ⟨hR1, hL1⟩ := dayStep_inv hL hR
      refine ih _ (List.pairwise_cons.mp hp).2 ?_ hR1
      intro q hmem d' hd'
      exact le_trans (hL1 q hmem) ((List.pairwise_cons.mp hp).1 d' hd')

theorem daysRange_pairwise (s e : Int) : (daysRange s e).Pairwise (· ≤ ·) := by
  unfold daysRange
  refine List.pairwise_map.mpr ?_
  refine (List.pairwise_lt_range _).imp ?_
  intro a b h
  show s + (a : Int) ≤ s + (b : Int)
  omega

/-- C10: in every returned-loan row emitted by `generate_loans`, the return
date is never earlier than the loan date; whenever the randomly drawn return
date would precede the loan date, it is replaced by the loan date plus 1 to
30 days. -/
theorem C10_return_dates (p : GenParams) (dc : Int → DayChoice)
    (emit : Nat → EmitChoice) (startD endD : Int) :
    (∀ (d ld : Int) (c : ReturnChoice), c.early = true →
      d - (c.daysBefore % 3 : Nat) < ld →
      returnDateFor d c ld = ld + (1 + c.lateDays % 30 : Nat) ∧
      ld + 1 ≤ returnDateFor d c ld ∧ returnDateFor d c ld ≤ ld + 30) ∧
    (∀ r ∈ (generate_loans p dc emit startD endD).2,
      r.loanDate ≤ r.returnDate) := by
  constructor
  · intro d ld c hearly hlt
    have hl : (c.lateDays % 30 : Nat) < 30 := Nat.mod_lt _ (by omega)
    have hkey : returnDateFor d c ld = ld + (1 + c.lateDays % 30 : Nat) := by
      simp only [returnDateFor, hearly, if_true, if_pos hlt]
    refine ⟨hkey, ?_, ?_⟩ <;> rw [hkey] <;> omega
  · intro r hr
    have := foldl_returnedOk p dc (daysRange startD endD)
      (initState p.specimens) (daysRange_pairwise startD endD)
      (by intro q hq; simp [initState] at hq)
      (by intro r2 hr2; simp [initState] at hr2)
    exact this r hr

/-! ### C9 invariant: the multiset of specimens across the available pool,
the open-loan dict and the already-emitted active rows is preserved by every
step, so a nodup initial key list forces pairwise-distinct specimens among
all unreturned loans -/

def footprint (st : LoanState) : List Nat :=
  st.specimenAvailable ++ st.specimenLoaned.map Prod.fst ++
    st.currentLoans.map ActiveLoan.specimenId

theorem perm_cons_dictRemove {V : Type} {l : List (Nat × V)} {k : Nat} {v : V}
    (h : dictFind l k = some v) : l.Perm ((k, v) :: dictRemove l k) := by
  induction l with
  | nil => simp [dictFind] at h
  | cons e es ih =>
      obtain ⟨k', v'⟩ := e
      by_cases hk : k' = k
      · subst hk
        simp only [dictFind, eq_self_iff_true, if_true, Option.some.injEq] at h
        subst h
        simp [dictRemove]
      · simp only [dictFind, if_neg hk] at h
        simp only [dictRemove, if_neg hk]
        exact ((ih h).cons (k', v')).trans
          (List.Perm.swap (k, v) (k', v') (dictRemove es k))

theorem dictInsert_keys_of_not_mem {V : Type} {l : List (Nat × V)} {k : Nat}
    (v : V) (h : k ∉ l.map Prod.fst) :
    (dictInsert l k v).map Prod.fst = l.map Prod.fst ++ [k] := by
  induction l with
  | nil => simp [dictInsert]
  | cons e es ih =>
      obtain ⟨k', v'⟩ := e
      simp only [List.map_cons, List.mem_cons] at h
      push_neg at h
      obtain ⟨h1, h2⟩ := h
      have hk : ¬ k' = k := fun hh => h1 hh.symm
      simp [dictInsert, hk, ih h2]

theorem footprint_doReturn_perm (d : Int) (c : ReturnChoice) (st : LoanState) :
    (footprint (doReturn d c st)).Perm (footprint st) := by
  simp only [doReturn]
  cases hfind : dictFind st.specimenLoaned
      ((st.specimenLoaned.map Prod.fst).getD
        (c.pick % (st.specimenLoaned.map Prod.fst).length) 0) with
  | none => exact .refl _
  | some e =>
      have hkeys := (perm_cons_dictRemove hfind).map Prod.fst
      simp only [List.map_cons] at hkeys
      simp only [footprint]
      rw [← Multiset.coe_eq_coe]
      simp only [← Multiset.coe_add, ← Multiset.cons_coe, ← Multiset.singleton_add]
      rw [Multiset.coe_eq_coe.mpr hkeys]
      simp only [← Multiset.cons_coe, ← Multiset.singleton_add]
      abel

theorem footprint_doReturns_perm (d : Int) (cs : List ReturnChoice)
    (st : LoanState) :
    (footprint (doReturns d cs st)).Perm (footprint st) := by
  induction cs generalizing st with
  | nil => exact .refl _
  | cons c cs ih =>
      unfold doReturns
      split
      · exact .refl _
      · exact (ih _).trans (footprint_doReturn_perm d c st)

theorem footprint_doLoan_perm (numUsers : Nat) (itemMap : Nat → Nat) (d : Int)
    (c : LoanChoice) {st : LoanState}
    (hne : st.specimenAvailable ≠ [])
    (hnd : (footprint st).Nodup) :
    (footprint (doLoan numUsers itemMap d c st)).Perm (footprint st) := by
  have hlen : 0 < st.specimenAvailable.length := List.length_pos.mpr hne
  have hidx : c.pick % st.specimenAvailable.length <
      st.specimenAvailable.length := Nat.mod_lt _ hlen
  have hmem : st.specimenAvailable.getD
      (c.pick % st.specimenAvailable.length) 0 ∈ st.specimenAvailable := by
    rw [List.getD_eq_getElem _ _ hidx]
    exact List.getElem_mem _
  set s := st.specimenAvailable.getD (c.pick % st.specimenAvailable.length) 0
    with hs
  have havail : st.specimenAvailable.Perm (s :: st.specimenAvailable.erase s) :=
    List.perm_cons_erase hmem
  have hsK : s ∉ st.specimenLoaned.map Prod.fst := by
    have h1 : (st.specimenAvailable ++ (st.specimenLoaned.map Prod.fst ++
        st.currentLoans.map ActiveLoan.specimenId)).Nodup := by
      simpa [footprint, List.append_assoc] using hnd
    have hdisj := (List.nodup_append.mp h1).2.2
    intro hk
    exact hdisj hmem (List.mem_append_left _ hk)
  have hA : (st.specimenAvailable : Multiset Nat) =
      {s} + (st.specimenAvailable.erase s : List Nat) := by
    rw [Multiset.coe_eq_coe.mpr havail, ← Multiset.cons_coe,
      ← Multiset.singleton_add]
  simp only [doLoan]
  split
  · simp only [footprint]
    rw [dictInsert_keys_of_not_mem _ hsK]
    rw [← Multiset.coe_eq_coe]
    simp only [← Multiset.coe_add, ← Multiset.cons_coe, ← Multiset.singleton_add]
    rw [hA]
    abel
  · simp only [footprint, List.map_append, List.map_cons, List.map_nil]
    rw [← Multiset.coe_eq_coe]
    simp only [← Multiset.coe_add, ← Multiset.cons_coe, ← Multiset.singleton_add]
    rw [hA]
    abel

theorem footprint_doLoans_perm (numUsers : Nat) (itemMap : Nat → Nat) (d : Int)
    (cs : List LoanChoice) (st : LoanState)
    (hnd : (footprint st).Nodup) :
    (footprint (doLoans numUsers itemMap d cs st)).Perm (footprint st) := by
  induction cs generalizing st with
  | nil => exact .refl _
  | cons c cs ih =>
      unfold doLoans
      split
      · exact .refl _
      · next hne =>
          have hne' : st.specimenAvailable ≠ [] := by
            simpa [List.isEmpty_iff] using hne
          have h1 := footprint_doLoan_perm numUsers itemMap d c hne' hnd
          have hnd1 : (footprint (doLoan numUsers itemMap d c st)).Nodup :=
            h1.nodup_iff.mpr hnd
          exact (ih _ hnd1).trans h1

theorem footprint_dayStep_perm (p : GenParams) (dc : Int → DayChoice)
    (st : LoanState) (d : Int) (hnd : (footprint st).Nodup) :
    (footprint (dayStep p dc st d)).Perm (footprint st) := by
  unfold dayStep
  split
  · have h1 := footprint_doReturns_perm d (dc d).returns st
    have hnd1 : (footprint (doReturns d (dc d).returns st)).Nodup :=
      h1.nodup_iff.mpr hnd
    exact (footprint_doLoans_perm p.numUsers p.itemMap d (dc d).loans _
      hnd1).trans h1
  · exact .refl _

theorem footprint_foldl_perm (p : GenParams) (dc : Int → DayChoice) :
    ∀ (ds : List Int) (st : LoanState), (footprint st).Nodup →
      (footprint (ds.foldl (dayStep p dc) st)).Perm (footprint st) := by
  intro ds
  induction ds with
  | nil => exact fun st _ => .refl _
  | cons d rest ih =>
      intro st hnd
      simp only [List.foldl_cons]
      have h1 := footprint_dayStep_perm p dc st d hnd
      have hnd1 : (footprint (dayStep p dc st d)).Nodup := h1.nodup_iff.mpr hnd
      exact (ih _ hnd1).trans h1

theorem flushRows_map_specimenId (emit : Nat → EmitChoice) :
    ∀ (i lid : Nat) (l : List (Nat × LoanedEntry)),
      (flushRows emit i lid l).map ActiveLoan.specimenId = l.map Prod.fst := by
  intro i lid l
  induction l generalizing i lid with
  | nil => simp [flushRows]
  | cons e rest ih =>
      obtain ⟨s, v⟩ := e
      simp [flushRows, ih]

/-- C9: among the unreturned (active) loan rows emitted by `generate_loans` —
both the rows emitted during the run and the remaining open loans flushed at
the end — every specimen occurs at most once, because a specimen leaves the
available pool when it is loaned and returns to it only when that loan is
returned. -/
theorem C9_no_double_loan (p : GenParams) (dc : Int → DayChoice)
    (emit : Nat → EmitChoice) (startD endD : Int)
    (h : p.specimens.Nodup) :
    ((generate_loans p dc emit startD endD).1.map ActiveLoan.specimenId).Nodup := by
  simp only [generate_loans]
  rw [List.map_append, flushRows_map_specimenId]
  have hnd0 : (footprint (initState p.specimens)).Nodup := by
    simpa [footprint, initState] using h
  have hperm := footprint_foldl_perm p dc (daysRange startD endD)
    (initState p.specimens) hnd0
  have hndF : (footprint ((daysRange startD endD).foldl (dayStep p dc)
      (initState p.specimens))).Nodup := hperm.nodup_iff.mpr hnd0
  set stF := (daysRange startD endD).foldl (dayStep p dc)
    (initState p.specimens) with hstF
  have hKC : (stF.specimenLoaned.map Prod.fst ++
      stF.currentLoans.map ActiveLoan.specimenId).Nodup := by
    have h1 : (stF.specimenAvailable ++ (stF.specimenLoaned.map Prod.fst ++
        stF.currentLoans.map ActiveLoan.specimenId)).Nodup := by
      simpa [footprint, List.append_assoc] using hndF
    exact (List.nodup_append.mp h1).2.1
  exact (List.perm_append_comm.nodup_iff).mpr hKC

/-! ### A small concrete run of the generator, for evaluation -/

def pDemo : GenParams :=
  { numUsers := 3, itemMap := fun s => s + 100, specimens := [1, 2],
    holidays := [] }

def lcDemo : LoanChoice :=
  { pick := 0, userRand := 0, toReturn := true, loanHour := 0,
    issueOffset := 0, issueHour := 0, renewRoll := false, nbRenews := 0 }

/-- Exercises the early-return adjustment: on day 1, `daysBefore` maps to 2,
so the drawn return date 1 - 2 falls before the loan date 0 and is replaced. -/
def rcDemo : ReturnChoice :=
  { pick := 0, early := true, daysBefore := 5, lateDays := 0, loanHour := 0,
    issueOffset := 0, issueHour := 0, returnHour := 0, renewRoll := false,
    nbRenews := 0 }

def dcDemo : Int → DayChoice := fun d =>
  if d = 0 then
    { returns := [], loans := [lcDemo, { lcDemo with toReturn := false }] }
  else if d = 1 then { returns := [rcDemo], loans := [] }
  else { returns := [], loans := [] }

def emitDemo : Nat → EmitChoice :=
  fun _ => { loanHour := 0, issueOffset := 0, issueHour := 0,
             renewRoll := false, nbRenews := 0 }

/-- The single returned row produced by the demo run over days 0..1. -/
def returnedDemoRow : ReturnedLoan :=
  { loanId := 2, userId := 1, specimenId := 1, itemId := 101, loanDate := 0,
    loanHour := 9, issueDate := 0, issueHour := 9, nbRenews := 0,
    returnDate := 1, returnHour := 14 }

/-- C10 witness: in the demo run the drawn return date 1 - 2 precedes the
loan date 0, the adjustment fires, and the emitted returned row satisfies
`loan_date <= return_date`. -/
theorem C10_return_dates_witness :
    returnDateFor 1 rcDemo 0 = 0 + (1 + rcDemo.lateDays % 30 : Nat) ∧
    returnedDemoRow ∈ (generate_loans pDemo dcDemo emitDemo 0 1).2 ∧
    returnedDemoRow.loanDate ≤ returnedDemoRow.returnDate :=
  ⟨((C10_return_dates pDemo dcDemo emitDemo 0 1).1 1 0 rcDemo (by decide)
      (by decide)).1,
   by decide,
   (C10_return_dates pDemo dcDemo emitDemo 0 1).2 returnedDemoRow (by decide)⟩

/-- C9 witness: the demo run starts from distinct specimen keys and its
active rows carry pairwise distinct specimens. -/
theorem C9_no_double_loan_witness :
    pDemo.specimens.Nodup ∧
    ((generate_loans pDemo dcDemo emitDemo 0 1).1.map
      ActiveLoan.specimenId).Nodup :=
  ⟨by decide, C9_no_double_loan pDemo dcDemo emitDemo 0 1 (by decide)⟩

end GenerateDataset
